import Mathlib

/-!
Verification of the capacity-constrained reservation core of the NGO
platform (`src/project/app.py`, `src/project/database/migrations.py`).

The data model follows `database.models` as used by `app.py`: an `Event`
(the spec's Resource) with an `is_active` flag, a `TimeSlot` (the spec's
Slot) with `max_volunteers` / `current_volunteers` / `is_available`, and a
`Booking` tying a volunteer (claimant) to a time slot, with a status
string in {confirmed, cancelled, completed}.

The database is a triple of row lists; primary-key lookup (`query.get`)
is modelled as first-match search and ORM row mutation as first-match
replacement.
-/

namespace Ngo

inductive BookingStatus where
  | confirmed
  | cancelled
  | completed
deriving DecidableEq, Repr

structure EventRow where
  id : Nat
  ngoId : Nat
  isActive : Bool
deriving DecidableEq, Repr

structure TimeSlotRow where
  id : Nat
  eventId : Nat
  maxVolunteers : Nat
  currentVolunteers : Nat
  isAvailable : Bool
deriving DecidableEq, Repr

structure BookingRow where
  id : Nat
  volunteerId : Nat
  timeSlotId : Nat
  eventId : Nat
  status : BookingStatus
deriving DecidableEq, Repr

structure DB where
  events : List EventRow
  slots : List TimeSlotRow
  bookings : List BookingRow
deriving DecidableEq, Repr

/-- The JSON responses of `book_slot`: `{'message': ...}` on success,
`({'error': msg}, code)` otherwise. -/
inductive BookResult where
  | ok
  | err (msg : String) (code : Nat)
deriving DecidableEq, Repr

/-- `Booking.query.filter_by(volunteer_id=vid, time_slot_id=sid).first()`
(app.py lines 643-646). Note: no status filter. -/
def findBookingFor (db : DB) (vid sid : Nat) : Option BookingRow :=
  db.bookings.find? (fun b => b.volunteerId == vid && b.timeSlotId == sid)

/-- `TimeSlot.query.with_for_update().get(slot_id)` (app.py line 654). -/
def findSlot (db : DB) (sid : Nat) : Option TimeSlotRow :=
  db.slots.find? (fun s => s.id == sid)

/-- Writing back the mutated ORM row fetched by primary key: replace the
first slot whose id matches. -/
def setSlot (sid : Nat) (s2 : TimeSlotRow) : List TimeSlotRow → List TimeSlotRow
  | [] => []
  | s :: ss => if s.id == sid then s2 :: ss else s :: setSlot sid s2 ss

/-- The transactional body of `book_slot` (app.py lines 652-674): re-fetch
the slot under the row lock, reject when missing or unavailable, reject
when full, otherwise insert a confirmed Booking, increment
`current_volunteers`, and flip `is_available` off when the new count
reaches `max_volunteers`. The caller-supplied `event_id` is stored on the
Booking without any check against the slot. -/
def bookSlotTx (db : DB) (vid sid eid newId : Nat) : BookResult × DB :=
  match findSlot db sid with
  | none => (.err "Slot not available" 400, db)
  | some slot =>
    if !slot.isAvailable then (.err "Slot not available" 400, db)
    else if slot.maxVolunteers ≤ slot.currentVolunteers then (.err "Slot is full" 400, db)
    else
      let newCount := slot.currentVolunteers + 1
      let slot2 : TimeSlotRow :=
        { slot with currentVolunteers := newCount,
                    isAvailable :=
                      if slot.maxVolunteers ≤ newCount then false else slot.isAvailable }
      let b : BookingRow :=
        { id := newId, volunteerId := vid, timeSlotId := sid, eventId := eid,
          status := .confirmed }
      (.ok, { db with slots := setSlot sid slot2 db.slots,
                      bookings := db.bookings ++ [b] })

/-- `book_slot` (app.py lines 624-680) from the point where the request
ids are read: reject missing ids (`not slot_id or not event_id`, so the
Python-falsy id 0 also counts as missing), reject when any Booking —
regardless of status — exists for (volunteer, slot), then run the
transaction. `newId` is the storage-assigned primary key of the inserted
row. The event's `is_active` flag is never consulted. -/
def bookSlot (db : DB) (vid sid eid newId : Nat) : BookResult × DB :=
  if sid == 0 || eid == 0 then (.err "Missing slot_id or event_id" 400, db)
  else
    match findBookingFor db vid sid with
    | some _ => (.err "You have already booked this slot" 400, db)
    | none => bookSlotTx db vid sid eid newId

/-- `book_slot` with a storage-failure oracle: the `except` handler
(app.py lines 678-680) rolls the session back, so a storage exception
raised anywhere inside the `try` leaves the committed state untouched and
returns the 500 response. -/
def bookSlotWithFailure (storageFail : Bool) (db : DB) (vid sid eid newId : Nat) :
    BookResult × DB :=
  if storageFail then (.err "Booking failed" 500, db)
  else bookSlot db vid sid eid newId

inductive CancelResult where
  | ok
  | notFound
  | notConfirmed
deriving DecidableEq, Repr

/-- Set the first booking whose id matches to status cancelled (the ORM
mutation `booking.status = 'cancelled'` on the row fetched by key). -/
def cancelFirst (bid : Nat) : List BookingRow → List BookingRow
  | [] => []
  | b :: bs =>
    if b.id == bid then { b with status := .cancelled } :: bs
    else b :: cancelFirst bid bs

/-- Modelled from the spec: the repository has no cancellation code under
`src` (`app.py` exposes no cancel route). Spec §4.2: `Cancel(bookingID)`
transitions status confirmed→cancelled and atomically decrements the
slot's `reserved_count`, re-opening the Slot if it had flipped closed. -/
def cancelBooking (db : DB) (bid : Nat) : CancelResult × DB :=
  match db.bookings.find? (fun b => b.id == bid) with
  | none => (.notFound, db)
  | some b =>
    if b.status = .confirmed then
      let slots2 :=
        match findSlot db b.timeSlotId with
        | none => db.slots
        | some s =>
          setSlot b.timeSlotId
            { s with currentVolunteers := s.currentVolunteers - 1,
                     isAvailable :=
                       s.isAvailable || decide (s.maxVolunteers ≤ s.currentVolunteers) }
            db.slots
      (.ok, { db with bookings := cancelFirst bid db.bookings, slots := slots2 })
    else (.notConfirmed, db)

/-- `ngo_delete_event` (app.py lines 555-562): delete Bookings by
`event_id`, delete TimeSlots by `event_id`, then the Event row itself. -/
def deleteEventCascade (db : DB) (eid : Nat) : DB :=
  { events := db.events.filter (fun e => !(e.id == eid)),
    slots := db.slots.filter (fun s => !(s.eventId == eid)),
    bookings := db.bookings.filter (fun b => !(b.eventId == eid)) }

/-- `ngo_toggle_event_status` (app.py line 589): flip the event's
`is_active` flag. Slots are not touched. -/
def toggleEventStatus (db : DB) (eid : Nat) : DB :=
  { db with events :=
      db.events.map (fun e => if e.id == eid then { e with isActive := !e.isActive } else e) }

/-- Run a list of book calls (volunteer, slot, event, new row id) in
order; the row lock serializes the transactional bodies, so a set of
concurrent calls is modelled as executing in some arbitrary order. -/
def runBooks (db : DB) : List (Nat × Nat × Nat × Nat) → List BookResult × DB
  | [] => ([], db)
  | c :: cs =>
    let r := bookSlot db c.1 c.2.1 c.2.2.1 c.2.2.2
    let rest := runBooks r.2 cs
    (r.1 :: rest.1, rest.2)

/-- The core operations of the reservation subsystem. -/
inductive Op where
  | book (vid sid eid newId : Nat)
  | cancel (bid : Nat)
  | deleteRes (eid : Nat)

def applyOp (db : DB) : Op → DB
  | .book v s e n => (bookSlot db v s e n).2
  | .cancel bid => (cancelBooking db bid).2
  | .deleteRes e => deleteEventCascade db e

def execOps (db : DB) : List Op → DB
  | [] => db
  | op :: ops => execOps (applyOp db op) ops

/-- Number of Bookings referencing a slot whose status is not cancelled. -/
def nonCancelledCount (bs : List BookingRow) (sid : Nat) : Nat :=
  bs.countP (fun b => b.timeSlotId == sid && !(b.status == BookingStatus.cancelled))

/-- Number of confirmed Bookings referencing a slot. -/
def confirmedCount (bs : List BookingRow) (sid : Nat) : Nat :=
  bs.countP (fun b => b.timeSlotId == sid && b.status == BookingStatus.confirmed)

/-- The spec §8 invariant: each slot's cached counter equals the number of
non-cancelled Bookings referencing it and never exceeds capacity. -/
def countInvariant (db : DB) : Prop :=
  ∀ s ∈ db.slots, s.currentVolunteers = nonCancelledCount db.bookings s.id ∧
    s.currentVolunteers ≤ s.maxVolunteers

/-- Every Booking's stored `event_id` agrees with the event of the slot it
references. -/
def eventMatch (db : DB) : Prop :=
  ∀ b ∈ db.bookings, ∀ s ∈ db.slots, b.timeSlotId = s.id → b.eventId = s.eventId

/-- Slot primary keys are distinct. -/
def slotIdsNodup (db : DB) : Prop := (db.slots.map TimeSlotRow.id).Nodup

def Inv (db : DB) : Prop := slotIdsNodup db ∧ eventMatch db ∧ countInvariant db

/-- A book call supplies the event id of the slot it names. -/
def opOk (db : DB) : Op → Prop
  | .book _ sid eid _ => ∀ s ∈ db.slots, s.id = sid → eid = s.eventId
  | .cancel _ => True
  | .deleteRes _ => True

def opsOk (db : DB) : List Op → Prop
  | [] => True
  | op :: ops => opOk db op ∧ opsOk (applyOp db op) ops

/-! ### Migration runner (`src/project/database/migrations.py`) -/

structure Migration where
  version : Nat
  name : String
deriving DecidableEq, Repr

/-- `DatabaseMigration._register_migrations` (migrations.py lines 22-70). -/
def registeredMigrations : List Migration :=
  [⟨1, "Initial Schema"⟩, ⟨2, "Add Indexes"⟩,
   ⟨3, "Add Status to Events"⟩, ⟨4, "Add Verification Fields"⟩]

/-- `sorted(pending_migrations, key=lambda x: x['version'])`: a stable
sort by version (insertion sort, inserting after equal keys). -/
def insertByVersion (m : Migration) : List Migration → List Migration
  | [] => [m]
  | x :: xs => if m.version < x.version then m :: x :: xs else x :: insertByVersion m xs

def sortByVersion : List Migration → List Migration
  | [] => []
  | x :: xs => insertByVersion x (sortByVersion xs)

/-- The `for ... try apply ... except break` loop of `run_migrations`
(migrations.py lines 151-156): `apply_migration` records the version and
commits, or rolls back and raises, in which case the loop stops. `fail`
is the storage-failure oracle; the returned list is the versions recorded
in the migrations table, in application order. -/
def runMigrationsFrom (fail : Nat → Bool) : List Migration → List Nat
  | [] => []
  | m :: ms => if fail m.version then [] else m.version :: runMigrationsFrom fail ms

/-- `run_migrations` (migrations.py lines 135-156): filter the registered
migrations to those with version strictly above the current database
version, sort by version, and apply until the first failure. -/
def run_migrations (cur : Nat) (fail : Nat → Bool) : List Nat :=
  runMigrationsFrom fail
    (sortByVersion (registeredMigrations.filter (fun m => cur < m.version)))

/-! ### Decidability of the invariants -/

instance (db : DB) : Decidable (countInvariant db) := by
  unfold countInvariant; exact List.decidableBAll _ _

instance (db : DB) : Decidable (eventMatch db) := by
  unfold eventMatch; exact List.decidableBAll _ _

instance (db : DB) : Decidable (slotIdsNodup db) := by
  unfold slotIdsNodup; infer_instance

instance (db : DB) : Decidable (Inv db) := by
  unfold Inv; infer_instance

instance (db : DB) (op : Op) : Decidable (opOk db op) := by
  cases op <;> simp only [opOk] <;> infer_instance

instance instDecOpsOk (db : DB) (ops : List Op) : Decidable (opsOk db ops) := by
  induction ops generalizing db with
  | nil => simp only [opsOk]; infer_instance
  | cons op ops ih =>
    simp only [opsOk]
    have := ih (applyOp db op)
    infer_instance

/-! ### Helper lemmas about first-match search and replacement -/

theorem find?_setSlot_of_found (ss : List TimeSlotRow) (sid : Nat) (s2 : TimeSlotRow)
    (h2 : (s2.id == sid) = true)
    (h : (ss.find? (fun s => s.id == sid)).isSome = true) :
    (setSlot sid s2 ss).find? (fun s => s.id == sid) = some s2 := by
  induction ss with
  | nil => simp at h
  | cons s ss ih =>
    by_cases hs : (s.id == sid) = true
    · unfold setSlot
      rw [if_pos hs]
      exact List.find?_cons_of_pos (p := fun s : TimeSlotRow => s.id == sid) _ h2
    · unfold setSlot
      rw [if_neg hs, List.find?_cons_of_neg (p := fun s : TimeSlotRow => s.id == sid) _ hs]
      rw [List.find?_cons_of_neg (p := fun s : TimeSlotRow => s.id == sid) _ hs] at h
      exact ih h

theorem find?_append_none {α : Type} {p : α → Bool} (l1 l2 : List α)
    (h1 : l1.find? p = none) (h2 : l2.find? p = none) : (l1 ++ l2).find? p = none := by
  rw [List.find?_eq_none] at h1 h2 ⊢
  intro x hx
  rcases List.mem_append.mp hx with h | h
  · exact h1 x h
  · exact h2 x h

theorem confirmedCount_append (l1 l2 : List BookingRow) (sid : Nat) :
    confirmedCount (l1 ++ l2) sid = confirmedCount l1 sid + confirmedCount l2 sid := by
  unfold confirmedCount
  exact List.countP_append _ _ _

theorem nonCancelledCount_append (l1 l2 : List BookingRow) (sid : Nat) :
    nonCancelledCount (l1 ++ l2) sid = nonCancelledCount l1 sid + nonCancelledCount l2 sid := by
  unfold nonCancelledCount
  exact List.countP_append _ _ _

/-- One successful transaction: the canonical shape of a `bookSlot` call
that passes every check. -/
theorem bookSlot_success_shape (db : DB) (v sid eid nid : Nat) (s0 : TimeSlotRow)
    (hs : (sid == 0 || eid == 0) = false)
    (hfresh : findBookingFor db v sid = none)
    (hfind : findSlot db sid = some s0)
    (hav : s0.isAvailable = true)
    (hlt : s0.currentVolunteers < s0.maxVolunteers) :
    bookSlot db v sid eid nid =
      (.ok, { db with
        slots := setSlot sid
          { s0 with currentVolunteers := s0.currentVolunteers + 1,
                    isAvailable := if s0.maxVolunteers ≤ s0.currentVolunteers + 1
                                   then false else true } db.slots,
        bookings := db.bookings ++ [⟨nid, v, sid, eid, .confirmed⟩] }) := by
  have hnotfull : ¬ (s0.maxVolunteers ≤ s0.currentVolunteers) := Nat.not_le.mpr hlt
  simp only [bookSlot, bookSlotTx, hs, hfresh, hfind, Bool.false_eq_true, if_false,
    hav, Bool.not_true, hnotfull]

/-- A call against an unavailable slot: rejected, state unchanged. -/
theorem bookSlot_unavailable_shape (db : DB) (v sid eid nid : Nat) (s0 : TimeSlotRow)
    (hs : (sid == 0 || eid == 0) = false)
    (hfresh : findBookingFor db v sid = none)
    (hfind : findSlot db sid = some s0)
    (hav : s0.isAvailable = false) :
    bookSlot db v sid eid nid = (.err "Slot not available" 400, db) := by
  simp only [bookSlot, bookSlotTx, hs, hfresh, hfind, Bool.false_eq_true, if_false,
    hav, Bool.not_false, if_true]

/-- A call against an open slot already at or over capacity: rejected
with the SlotFull error, state unchanged. -/
theorem bookSlot_full_shape (db : DB) (v sid eid nid : Nat) (s0 : TimeSlotRow)
    (hs : (sid == 0 || eid == 0) = false)
    (hfresh : findBookingFor db v sid = none)
    (hfind : findSlot db sid = some s0)
    (hav : s0.isAvailable = true)
    (hge : s0.maxVolunteers ≤ s0.currentVolunteers) :
    bookSlot db v sid eid nid = (.err "Slot is full" 400, db) := by
  simp only [bookSlot, bookSlotTx, hs, hfresh, hfind, Bool.false_eq_true, if_false,
    hav, Bool.not_true, hge, if_true]

/-- The serialized fill run: starting from a slot whose availability flag
is consistent with its count, the first `capacity − count` distinct fresh
claimants succeed and every later one is rejected with the
"Slot not available" error. -/
theorem runBooks_fill (sid eid : Nat) (hs : sid ≠ 0) (he : eid ≠ 0)
    (calls : List (Nat × Nat)) :
    ∀ (c : Nat) (db : DB) (s0 : TimeSlotRow) (cap : Nat),
    findSlot db sid = some s0 →
    s0.maxVolunteers = cap → s0.currentVolunteers = c →
    s0.isAvailable = decide (c < cap) → c ≤ cap →
    (calls.map Prod.fst).Nodup →
    (∀ p ∈ calls, findBookingFor db p.1 sid = none) →
    cap - c ≤ calls.length →
    (runBooks db (calls.map (fun p => (p.1, sid, eid, p.2)))).1
        = List.replicate (cap - c) .ok
          ++ List.replicate (calls.length - (cap - c)) (.err "Slot not available" 400)
      ∧ confirmedCount (runBooks db (calls.map (fun p => (p.1, sid, eid, p.2)))).2.bookings sid
        = confirmedCount db.bookings sid + (cap - c) := by
  have h0 : (sid == 0 || eid == 0) = false := by simp [hs, he]
  induction calls with
  | nil =>
    intro c db s0 cap hfind hmax hcur hav hle hnd hfresh hlen
    have hc0 : cap - c = 0 := by
      simp only [List.length_nil] at hlen
      omega
    simp [runBooks, hc0]
  | cons p calls ih =>
    intro c db s0 cap hfind hmax hcur hav hle hnd hfresh hlen
    rw [List.map_cons, List.nodup_cons] at hnd
    rcases Nat.lt_or_ge c cap with hc | hc
    · -- still capacity: this call succeeds
      have hav2 : s0.isAvailable = true := by rw [hav]; exact decide_eq_true hc
      have hfr : findBookingFor db p.1 sid = none := hfresh p (List.mem_cons_self _ _)
      have hrun := bookSlot_success_shape db p.1 sid eid p.2 s0 h0 hfr hfind hav2
        (by omega)
      have hid : (s0.id == sid) = true := by
        have h3 := List.find?_some (p := fun s : TimeSlotRow => s.id == sid) hfind
        simpa using h3
      have hfind2 : findSlot (bookSlot db p.1 sid eid p.2).2 sid
          = some { s0 with currentVolunteers := s0.currentVolunteers + 1,
                           isAvailable := if s0.maxVolunteers ≤ s0.currentVolunteers + 1
                                          then false else true } := by
        rw [hrun]
        unfold findSlot
        refine find?_setSlot_of_found _ _ _ hid ?_
        unfold findSlot at hfind
        rw [hfind]
        rfl
      have hav3 : (if s0.maxVolunteers ≤ s0.currentVolunteers + 1 then false else true)
          = decide (c + 1 < cap) := by
        rcases Nat.lt_or_ge (c + 1) cap with h | h
        · rw [if_neg (by omega), decide_eq_true h]
        · rw [if_pos (by omega)]
          exact (decide_eq_false (by omega)).symm
      have hfresh2 : ∀ q ∈ calls, findBookingFor (bookSlot db p.1 sid eid p.2).2 q.1 sid
          = none := by
        intro q hq
        rw [hrun]
        unfold findBookingFor
        refine find?_append_none _ _ (hfresh q (List.mem_cons_of_mem _ hq)) ?_
        have hne : q.1 ≠ p.1 := by
          intro hqp
          exact hnd.1 (hqp ▸ List.mem_map_of_mem Prod.fst hq)
        simp [hne.symm]
      have hconfstep : confirmedCount (bookSlot db p.1 sid eid p.2).2.bookings sid
          = confirmedCount db.bookings sid + 1 := by
        rw [hrun]
        rw [confirmedCount_append]
        simp [confirmedCount, List.countP_cons]
      have ihr := ih (c + 1) (bookSlot db p.1 sid eid p.2).2 _ cap hfind2 hmax
        (by show s0.currentVolunteers + 1 = c + 1; rw [hcur])
        (by show (if s0.maxVolunteers ≤ s0.currentVolunteers + 1 then false else true)
              = decide (c + 1 < cap);
            exact hav3)
        (by omega) hnd.2 hfresh2
        (by simp only [List.length_cons] at hlen; omega)
      rw [List.map_cons]
      constructor
      · show (bookSlot db p.1 sid eid p.2).1 ::
            (runBooks (bookSlot db p.1 sid eid p.2).2 (calls.map _)).1 = _
        rw [ihr.1, hrun]
        have hsplit : cap - c = (cap - (c + 1)) + 1 := by omega
        rw [hsplit, List.replicate_succ, List.cons_append]
        have harith : (p :: calls).length - ((cap - (c + 1)) + 1)
            = calls.length - (cap - (c + 1)) := by
          simp only [List.length_cons]
          omega
        rw [harith]
      · show confirmedCount
            (runBooks (bookSlot db p.1 sid eid p.2).2 (calls.map _)).2.bookings sid = _
        rw [ihr.2, hconfstep]
        omega
    · -- slot exhausted: availability flag is off, call rejected
      have hceq : c = cap := by omega
      have hav2 : s0.isAvailable = false := by
        rw [hav, hceq]
        exact decide_eq_false (by omega)
      have hfr : findBookingFor db p.1 sid = none := hfresh p (List.mem_cons_self _ _)
      have hrun := bookSlot_unavailable_shape db p.1 sid eid p.2 s0 h0 hfr hfind hav2
      have ihr := ih c db s0 cap hfind hmax hcur hav hle hnd.2
        (fun q hq => hfresh q (List.mem_cons_of_mem _ hq))
        (by omega)
      rw [List.map_cons]
      have hc0 : cap - c = 0 := by omega
      constructor
      · show (bookSlot db p.1 sid eid p.2).1 ::
            (runBooks (bookSlot db p.1 sid eid p.2).2 (calls.map _)).1 = _
        rw [hrun]
        show BookResult.err "Slot not available" 400 :: (runBooks db (calls.map _)).1 = _
        rw [ihr.1, hc0]
        simp [List.replicate_succ]
      · show confirmedCount
            (runBooks (bookSlot db p.1 sid eid p.2).2 (calls.map _)).2.bookings sid = _
        rw [hrun]
        show confirmedCount (runBooks db (calls.map _)).2.bookings sid = _
        rw [ihr.2]

theorem find?_cancelFirst (bs : List BookingRow) (bid : Nat) (b : BookingRow)
    (h : bs.find? (fun x => x.id == bid) = some b) :
    (cancelFirst bid bs).find? (fun x => x.id == bid)
      = some { b with status := .cancelled } := by
  induction bs with
  | nil => simp at h
  | cons a bs ih =>
    by_cases ha : (a.id == bid) = true
    · rw [List.find?_cons_of_pos (p := fun x : BookingRow => x.id == bid) _ ha] at h
      injection h with h
      subst h
      unfold cancelFirst
      rw [if_pos ha]
      exact List.find?_cons_of_pos (p := fun x : BookingRow => x.id == bid) _
        (by simpa using ha)
    · rw [List.find?_cons_of_neg (p := fun x : BookingRow => x.id == bid) _ ha] at h
      unfold cancelFirst
      rw [if_neg ha, List.find?_cons_of_neg (p := fun x : BookingRow => x.id == bid) _ ha]
      exact ih h

/-- Cancelling changes only a status field: every row of the result agrees
with some original row on every field except possibly the status. -/
theorem mem_cancelFirst (bs : List BookingRow) (bid : Nat) :
    ∀ x ∈ cancelFirst bid bs, ∃ y ∈ bs, x.volunteerId = y.volunteerId ∧
      x.timeSlotId = y.timeSlotId ∧ x.eventId = y.eventId := by
  induction bs with
  | nil => intro x hx; simp [cancelFirst] at hx
  | cons a bs ih =>
    intro x hx
    unfold cancelFirst at hx
    by_cases ha : (a.id == bid) = true
    · rw [if_pos ha] at hx
      rcases List.mem_cons.mp hx with h | h
      · exact ⟨a, List.mem_cons_self _ _, by subst h; exact ⟨rfl, rfl, rfl⟩⟩
      · exact ⟨x, List.mem_cons_of_mem _ h, rfl, rfl, rfl⟩
    · rw [if_neg ha] at hx
      rcases List.mem_cons.mp hx with h | h
      · subst h
        exact ⟨x, List.mem_cons_self _ _, rfl, rfl, rfl⟩
      · rcases ih x h with ⟨y, hy, h1, h2, h3⟩
        exact ⟨y, List.mem_cons_of_mem _ hy, h1, h2, h3⟩

theorem findBookingFor_cancelFirst_none (bs : List BookingRow) (bid v sid : Nat)
    (h : bs.find? (fun b => b.volunteerId == v && b.timeSlotId == sid) = none) :
    (cancelFirst bid bs).find? (fun b => b.volunteerId == v && b.timeSlotId == sid)
      = none := by
  rw [List.find?_eq_none] at h ⊢
  intro x hx
  rcases mem_cancelFirst bs bid x hx with ⟨y, hy, h1, h2, _⟩
  have hyn := h y hy
  simp only [h1, h2]
  exact hyn

/-- With distinct slot ids, a row of the written-back list is either the
replacement row or an untouched row whose id differs from the key. -/
theorem mem_setSlot_of_nodup (ss : List TimeSlotRow) (sid : Nat) (s2 : TimeSlotRow)
    (hnd : (ss.map TimeSlotRow.id).Nodup) :
    ∀ t ∈ setSlot sid s2 ss, t = s2 ∨ (t ∈ ss ∧ ¬ t.id = sid) := by
  induction ss with
  | nil => intro t ht; simp [setSlot] at ht
  | cons s ss ih =>
    intro t ht
    rw [List.map_cons, List.nodup_cons] at hnd
    unfold setSlot at ht
    by_cases hsd : (s.id == sid) = true
    · rw [if_pos hsd] at ht
      rcases List.mem_cons.mp ht with h | h
      · exact Or.inl h
      · refine Or.inr ⟨List.mem_cons_of_mem _ h, ?_⟩
        intro htid
        have hsid : s.id = sid := by simpa using hsd
        exact hnd.1 (by rw [hsid, ← htid]; exact List.mem_map_of_mem _ h)
    · rw [if_neg hsd] at ht
      rcases List.mem_cons.mp ht with h | h
      · refine Or.inr ⟨by rw [h]; exact List.mem_cons_self _ _, ?_⟩
        intro htid
        apply hsd
        rw [h] at htid
        simpa using htid
      · rcases ih hnd.2 t h with h2 | h2
        · exact Or.inl h2
        · exact Or.inr ⟨List.mem_cons_of_mem _ h2.1, h2.2⟩

/-- Replacing a row by one with the same id leaves the id column as is. -/
theorem map_id_setSlot (ss : List TimeSlotRow) (sid : Nat) (s2 : TimeSlotRow)
    (h2 : s2.id = sid) :
    (setSlot sid s2 ss).map TimeSlotRow.id = ss.map TimeSlotRow.id := by
  induction ss with
  | nil => rfl
  | cons s ss ih =>
    unfold setSlot
    by_cases hsd : (s.id == sid) = true
    · rw [if_pos hsd]
      simp only [List.map_cons]
      rw [h2]
      have hsid : s.id = sid := by simpa using hsd
      rw [hsid]
    · rw [if_neg hsd]
      simp only [List.map_cons, ih]

/-- Cancelling the found confirmed booking lowers the non-cancelled count
of its slot by exactly one and leaves every other slot's count alone. -/
theorem nonCancelledCount_cancelFirst (bs : List BookingRow) (bid : Nat) (b : BookingRow)
    (h : bs.find? (fun x => x.id == bid) = some b) (hc : b.status = .confirmed) (x : Nat) :
    nonCancelledCount bs x
      = nonCancelledCount (cancelFirst bid bs) x
        + (if (b.timeSlotId == x) = true then 1 else 0) := by
  induction bs with
  | nil => simp at h
  | cons a bs ih =>
    by_cases ha : (a.id == bid) = true
    · rw [List.find?_cons_of_pos (p := fun y : BookingRow => y.id == bid) _ ha] at h
      injection h with h
      subst h
      unfold cancelFirst
      rw [if_pos ha]
      unfold nonCancelledCount
      rw [List.countP_cons, List.countP_cons]
      rw [hc]
      cases hx : (a.timeSlotId == x) <;> simp [hx]
    · rw [List.find?_cons_of_neg (p := fun y : BookingRow => y.id == bid) _ ha] at h
      unfold cancelFirst
      rw [if_neg ha]
      unfold nonCancelledCount at ih ⊢
      rw [List.countP_cons, List.countP_cons, ih h]
      omega

/-- Deleting the bookings of an event does not change the non-cancelled
count of a slot none of whose bookings belong to that event. -/
theorem nonCancelledCount_filter_event (bs : List BookingRow) (eid x : Nat)
    (h : ∀ b ∈ bs, b.timeSlotId = x → ¬ b.eventId = eid) :
    nonCancelledCount (bs.filter (fun b => !(b.eventId == eid))) x
      = nonCancelledCount bs x := by
  induction bs with
  | nil => rfl
  | cons a bs ih =>
    have htail := fun b hb => h b (List.mem_cons_of_mem _ hb)
    rw [List.filter_cons]
    unfold nonCancelledCount
    by_cases hae : (a.eventId == eid) = true
    · have hax : (a.timeSlotId == x) = false := by
        rw [beq_eq_false_iff_ne]
        intro h1
        exact h a (List.mem_cons_self _ _) h1 (by simpa using hae)
      simp only [hae, Bool.not_true, Bool.false_eq_true, if_false]
      rw [List.countP_cons]
      have hz : (if (a.timeSlotId == x && !(a.status == BookingStatus.cancelled)) = true
          then 1 else 0) = 0 := by
        rw [hax]
        simp
      rw [hz]
      unfold nonCancelledCount at ih
      rw [ih htail]
      omega
    · have hae2 : (!(a.eventId == eid)) = true := by
        simp only [Bool.not_eq_true']
        exact Bool.eq_false_iff.mpr (fun hcc => hae hcc)
      simp only [hae2, if_true]
      rw [List.countP_cons, List.countP_cons]
      unfold nonCancelledCount at ih
      rw [ih htail]

/-- A `bookSlot` call whose supplied event id matches the slot's event
preserves the full invariant. -/
theorem inv_preserved_book (db : DB) (v sid eid nid : Nat)
    (hinv : Inv db) (hok : ∀ s ∈ db.slots, s.id = sid → eid = s.eventId) :
    Inv (bookSlot db v sid eid nid).2 := by
  by_cases h0 : (sid == 0 || eid == 0) = true
  · have hout : bookSlot db v sid eid nid = (.err "Missing slot_id or event_id" 400, db) := by
      unfold bookSlot
      rw [if_pos h0]
    rw [hout]
    exact hinv
  · have h0f : (sid == 0 || eid == 0) = false := by
      cases hcc : (sid == 0 || eid == 0)
      · rfl
      · exact absurd hcc h0
    rcases hb : findBookingFor db v sid with _ | b
    · rcases hfind : findSlot db sid with _ | slot
      · have hout : bookSlot db v sid eid nid = (.err "Slot not available" 400, db) := by
          simp only [bookSlot, bookSlotTx, h0f, hb, hfind, Bool.false_eq_true, if_false]
        rw [hout]
        exact hinv
      · by_cases hav : slot.isAvailable = true
        · by_cases hfull : slot.maxVolunteers ≤ slot.currentVolunteers
          · have hout := bookSlot_full_shape db v sid eid nid slot h0f hb hfind hav hfull
            rw [hout]
            exact hinv
          · have hlt : slot.currentVolunteers < slot.maxVolunteers := by omega
            have hout := bookSlot_success_shape db v sid eid nid slot h0f hb hfind hav hlt
            rw [hout]
            have hid : (slot.id == sid) = true := by
              have h3 := List.find?_some (p := fun s : TimeSlotRow => s.id == sid) hfind
              simpa using h3
            have hsid : slot.id = sid := by simpa using hid
            have hmem : slot ∈ db.slots :=
              List.mem_of_find?_eq_some (p := fun s : TimeSlotRow => s.id == sid) hfind
            obtain ⟨hnd, hem, hcnt⟩ := hinv
            refine ⟨?_, ?_, ?_⟩
            · unfold slotIdsNodup at hnd ⊢
              dsimp only
              have hmap := map_id_setSlot db.slots sid
                { slot with currentVolunteers := slot.currentVolunteers + 1,
                            isAvailable := if slot.maxVolunteers ≤ slot.currentVolunteers + 1
                                           then false else true } hsid
              rw [hmap]
              exact hnd
            · unfold eventMatch at hem ⊢
              dsimp only
              intro b2 hb2 t ht hteq
              rcases List.mem_append.mp hb2 with hbo | hbn
              · rcases mem_setSlot_of_nodup _ _ _ hnd t ht with h | ⟨htmem, _⟩
                · rw [h] at hteq ⊢
                  show b2.eventId = slot.eventId
                  exact hem b2 hbo slot hmem (by rw [hteq])
                · exact hem b2 hbo t htmem hteq
              · have hb2e : b2 = ⟨nid, v, sid, eid, .confirmed⟩ := by simpa using hbn
                subst hb2e
                rcases mem_setSlot_of_nodup _ _ _ hnd t ht with h | ⟨htmem, htid⟩
                · rw [h]
                  show eid = slot.eventId
                  exact hok slot hmem hsid
                · exact absurd hteq.symm (by simpa using htid)
            · unfold countInvariant at hcnt ⊢
              dsimp only
              intro t ht
              rcases mem_setSlot_of_nodup _ _ _ hnd t ht with h | ⟨htmem, htid⟩
              · rw [h]
                have hcc := hcnt slot hmem
                constructor
                · show slot.currentVolunteers + 1
                    = nonCancelledCount (db.bookings ++ [⟨nid, v, sid, eid, .confirmed⟩]) slot.id
                  rw [nonCancelledCount_append]
                  have hone : nonCancelledCount
                      ([⟨nid, v, sid, eid, .confirmed⟩] : List BookingRow) slot.id = 1 := by
                    unfold nonCancelledCount
                    rw [List.countP_cons]
                    simp [hsid]
                  rw [hone]
                  omega
                · show slot.currentVolunteers + 1 ≤ slot.maxVolunteers
                  omega
              · have hcc := hcnt t htmem
                constructor
                · rw [nonCancelledCount_append]
                  have hzero : nonCancelledCount
                      ([⟨nid, v, sid, eid, .confirmed⟩] : List BookingRow) t.id = 0 := by
                    unfold nonCancelledCount
                    rw [List.countP_cons]
                    have hidf : (sid == t.id) = false := by
                      rw [beq_eq_false_iff_ne]
                      intro hcontra
                      exact htid hcontra.symm
                    simp [hidf]
                  rw [hzero]
                  omega
                · exact hcc.2
        · have hav2 : slot.isAvailable = false := by
            cases hcc : slot.isAvailable
            · rfl
            · exact absurd hcc hav
          have hout := bookSlot_unavailable_shape db v sid eid nid slot h0f hb hfind hav2
          rw [hout]
          exact hinv
    · have hout : bookSlot db v sid eid nid
          = (.err "You have already booked this slot" 400, db) := by
        simp only [bookSlot, h0f, hb, Bool.false_eq_true, if_false]
      rw [hout]
      exact hinv

/-- A cancel (spec-modelled) preserves the full invariant. -/
theorem inv_preserved_cancel (db : DB) (bid : Nat) (hinv : Inv db) :
    Inv (cancelBooking db bid).2 := by
  rcases hb : db.bookings.find? (fun x => x.id == bid) with _ | b
  · have hout : cancelBooking db bid = (.notFound, db) := by
      simp [cancelBooking, hb]
    rw [hout]
    exact hinv
  · by_cases hst : b.status = .confirmed
    · rcases hsf : findSlot db b.timeSlotId with _ | s
      · have hout : cancelBooking db bid
            = (.ok, { db with bookings := cancelFirst bid db.bookings }) := by
          simp [cancelBooking, hb, hst, hsf]
        rw [hout]
        obtain ⟨hnd, hem, hcnt⟩ := hinv
        refine ⟨hnd, ?_, ?_⟩
        · unfold eventMatch at hem ⊢
          dsimp only
          intro b2 hb2 t ht hteq
          rcases mem_cancelFirst _ _ b2 hb2 with ⟨y, hy, _, h2, h3⟩
          rw [h3]
          exact hem y hy t ht (by rw [← h2]; exact hteq)
        · unfold countInvariant at hcnt ⊢
          dsimp only
          intro t ht
          have hkey := nonCancelledCount_cancelFirst db.bookings bid b hb hst t.id
          have hbne : (b.timeSlotId == t.id) = false := by
            unfold findSlot at hsf
            rw [List.find?_eq_none] at hsf
            have hnm := hsf t ht
            rw [beq_eq_false_iff_ne]
            intro hcontra
            exact hnm (by simpa using hcontra.symm)
          rw [hbne] at hkey
          simp only [Bool.false_eq_true, if_false, Nat.add_zero] at hkey
          have hcc := hcnt t ht
          exact ⟨by rw [hcc.1, hkey], hcc.2⟩
      · have hid : (s.id == b.timeSlotId) = true := by
          have h3 := List.find?_some (p := fun x : TimeSlotRow => x.id == b.timeSlotId) hsf
          simpa using h3
        have hsid : s.id = b.timeSlotId := by simpa using hid
        have hmem : s ∈ db.slots :=
          List.mem_of_find?_eq_some (p := fun x : TimeSlotRow => x.id == b.timeSlotId) hsf
        have hout : cancelBooking db bid
            = (.ok, { db with bookings := cancelFirst bid db.bookings,
                              slots := setSlot b.timeSlotId
                                { s with currentVolunteers := s.currentVolunteers - 1,
                                         isAvailable := s.isAvailable
                                           || decide (s.maxVolunteers ≤ s.currentVolunteers) }
                                db.slots }) := by
          simp [cancelBooking, hb, hst, hsf]
        rw [hout]
        obtain ⟨hnd, hem, hcnt⟩ := hinv
        refine ⟨?_, ?_, ?_⟩
        · unfold slotIdsNodup at hnd ⊢
          dsimp only
          have hmap := map_id_setSlot db.slots b.timeSlotId
            { s with currentVolunteers := s.currentVolunteers - 1,
                     isAvailable := s.isAvailable
                       || decide (s.maxVolunteers ≤ s.currentVolunteers) } hsid
          rw [hmap]
          exact hnd
        · unfold eventMatch at hem ⊢
          dsimp only
          intro b2 hb2 t ht hteq
          rcases mem_cancelFirst _ _ b2 hb2 with ⟨y, hy, _, h2, h3⟩
          rcases mem_setSlot_of_nodup _ _ _ hnd t ht with h | ⟨htmem, _⟩
          · rw [h3, h]
            show y.eventId = s.eventId
            refine hem y hy s hmem ?_
            rw [← h2, hteq, h]
          · rw [h3]
            exact hem y hy t htmem (by rw [← h2]; exact hteq)
        · unfold countInvariant at hcnt ⊢
          dsimp only
          intro t ht
          rcases mem_setSlot_of_nodup _ _ _ hnd t ht with h | ⟨htmem, htid⟩
          · rw [h]
            have hkey := nonCancelledCount_cancelFirst db.bookings bid b hb hst s.id
            have hcc := hcnt s hmem
            constructor
            · show s.currentVolunteers - 1
                = nonCancelledCount (cancelFirst bid db.bookings) s.id
              have hbt : (b.timeSlotId == s.id) = true := by simp [hsid]
              rw [hbt] at hkey
              simp only [if_true] at hkey
              omega
            · show s.currentVolunteers - 1 ≤ s.maxVolunteers
              have := hcc.2
              omega
          · have hkey := nonCancelledCount_cancelFirst db.bookings bid b hb hst t.id
            have hbt : (b.timeSlotId == t.id) = false := by
              rw [beq_eq_false_iff_ne]
              intro hcontra
              exact htid hcontra.symm
            rw [hbt] at hkey
            simp only [Bool.false_eq_true, if_false, Nat.add_zero] at hkey
            have hcc := hcnt t htmem
            exact ⟨by rw [hcc.1, hkey], hcc.2⟩
    · have hout : cancelBooking db bid = (.notConfirmed, db) := by
        simp [cancelBooking, hb, hst]
      rw [hout]
      exact hinv

/-- The cascade delete of a Resource preserves the full invariant. -/
theorem inv_preserved_delete (db : DB) (eid : Nat) (hinv : Inv db) :
    Inv (deleteEventCascade db eid) := by
  obtain ⟨hnd, hem, hcnt⟩ := hinv
  unfold deleteEventCascade
  refine ⟨?_, ?_, ?_⟩
  · unfold slotIdsNodup at hnd ⊢
    dsimp only
    exact List.Nodup.sublist (List.Sublist.map _ (List.filter_sublist _)) hnd
  · unfold eventMatch at hem ⊢
    dsimp only
    intro b hb t ht hteq
    rw [List.mem_filter] at hb ht
    exact hem b hb.1 t ht.1 hteq
  · unfold countInvariant at hcnt ⊢
    dsimp only
    intro t ht
    rw [List.mem_filter] at ht
    have hcc := hcnt t ht.1
    have hh : ∀ b ∈ db.bookings, b.timeSlotId = t.id → ¬ b.eventId = eid := by
      intro b hbm hbt
      have hbe := hem b hbm t ht.1 hbt
      rw [hbe]
      have ht2 := ht.2
      simp only [Bool.not_eq_true'] at ht2
      exact fun hcc2 => by
        rw [hcc2] at ht2
        simp at ht2
    rw [nonCancelledCount_filter_event _ _ _ hh]
    exact hcc

/-- Each core operation, run under the matching-event-id discipline for
book calls, preserves the full invariant. -/
theorem inv_preserved (db : DB) (op : Op) (hinv : Inv db) (hok : opOk db op) :
    Inv (applyOp db op) := by
  cases op with
  | book v s e n => exact inv_preserved_book db v s e n hinv hok
  | cancel bid => exact inv_preserved_cancel db bid hinv
  | deleteRes e => exact inv_preserved_delete db e hinv

/-! ### Claim theorems -/

/-- Claim C9: `book_slot` stores the caller-supplied `event_id` on the new
Booking without verifying it against the booked slot's event: with slot 10
belonging to event 1 and event id 2 supplied, the call succeeds and the
created confirmed Booking carries event id 2 while its slot's event id is 1. -/
theorem book_slot_stores_mismatched_event_id :
    (bookSlot ⟨[⟨1, 1, true⟩, ⟨2, 1, true⟩], [⟨10, 1, 2, 0, true⟩], []⟩ 5 10 2 1).1 = .ok ∧
    (bookSlot ⟨[⟨1, 1, true⟩, ⟨2, 1, true⟩], [⟨10, 1, 2, 0, true⟩], []⟩ 5 10 2 1).2.bookings
      = [⟨1, 5, 10, 2, .confirmed⟩] ∧
    findSlot ⟨[⟨1, 1, true⟩, ⟨2, 1, true⟩], [⟨10, 1, 2, 0, true⟩], []⟩ 10
      = some ⟨10, 1, 2, 0, true⟩ ∧
    (2 : Nat) ≠ 1 := by decide

/-- Claim C4, counterexample: after deactivating event 1 (its only slot 10
open with spare capacity), a Book against slot 10 by a fresh volunteer
succeeds instead of being rejected with SlotClosed. -/
theorem book_after_deactivation_succeeds :
    (toggleEventStatus ⟨[⟨1, 1, true⟩], [⟨10, 1, 3, 0, true⟩], []⟩ 1).events
      = [⟨1, 1, false⟩] ∧
    (bookSlot (toggleEventStatus ⟨[⟨1, 1, true⟩], [⟨10, 1, 3, 0, true⟩], []⟩ 1)
      5 10 1 1).1 = .ok := by decide

/-- Claim C4, amended: `book_slot` never consults the events table — its
result and its effect on the slots and bookings are identical for every
events table, so deactivating a Resource has no effect on subsequent Book
calls against its Slots. -/
theorem book_slot_ignores_resource_activation (db : DB) (es : List EventRow)
    (v sid eid nid : Nat) :
    (bookSlot { db with events := es } v sid eid nid).1 = (bookSlot db v sid eid nid).1 ∧
    (bookSlot { db with events := es } v sid eid nid).2.slots
      = (bookSlot db v sid eid nid).2.slots ∧
    (bookSlot { db with events := es } v sid eid nid).2.bookings
      = (bookSlot db v sid eid nid).2.bookings := by
  obtain ⟨ev, sl, bk⟩ := db
  unfold bookSlot bookSlotTx findBookingFor findSlot
  dsimp only
  split
  · exact ⟨rfl, rfl, rfl⟩
  · split
    · exact ⟨rfl, rfl, rfl⟩
    · split
      · exact ⟨rfl, rfl, rfl⟩
      · split
        · exact ⟨rfl, rfl, rfl⟩
        · split
          · exact ⟨rfl, rfl, rfl⟩
          · exact ⟨rfl, rfl, rfl⟩

/-- Claim C5, counterexample: volunteer 5's only Booking on slot 10 has
status cancelled (the non-cancelled count for the pair is 0), yet a second
Book call by volunteer 5 is rejected as a duplicate, because the duplicate
check of `book_slot` has no status filter. -/
theorem cancelled_booking_still_blocks_rebooking :
    ((bookSlot ⟨[⟨1, 1, true⟩], [⟨10, 1, 3, 1, true⟩], [⟨1, 5, 10, 1, .cancelled⟩]⟩
        5 10 1 2).1 = .err "You have already booked this slot" 400) ∧
    nonCancelledCount [⟨1, 5, 10, 1, .cancelled⟩] 10 = 0 := by decide

/-- Claim C5, amended: with valid ids, a Book call is rejected as a
duplicate if and only if any Booking — of any status, cancelled included —
exists for the (claimant, slot) pair; a claimant whose only prior Booking
is cancelled is still rejected. -/
theorem duplicate_rejection_ignores_status (db : DB) (v sid eid nid : Nat)
    (hs : sid ≠ 0) (he : eid ≠ 0) :
    (bookSlot db v sid eid nid).1 = .err "You have already booked this slot" 400
      ↔ (findBookingFor db v sid).isSome := by
  unfold bookSlot
  have h0 : (sid == 0 || eid == 0) = false := by
    simp [hs, he]
  rw [h0]
  simp only [Bool.false_eq_true, if_false]
  cases hb : findBookingFor db v sid with
  | some b => simp
  | none =>
    simp only [Option.isSome_none, Bool.false_eq_true, iff_false]
    unfold bookSlotTx
    split
    · simp
    · split
      · simp
      · split
        · simp
        · simp

/-- Claim C5, witness instantiation of the amended theorem. -/
theorem duplicate_rejection_ignores_status_check :
    (bookSlot ⟨[⟨1, 1, true⟩], [⟨10, 1, 3, 1, true⟩], [⟨2, 6, 10, 1, .cancelled⟩]⟩
        6 10 1 3).1 = .err "You have already booked this slot" 400 :=
  (duplicate_rejection_ignores_status
      ⟨[⟨1, 1, true⟩], [⟨10, 1, 3, 1, true⟩], [⟨2, 6, 10, 1, .cancelled⟩]⟩
      6 10 1 3 (by decide) (by decide)).mpr (by decide)

/-- Claim C6: every Book call that does not succeed — missing ids,
duplicate, slot missing or unavailable, slot full, or a storage failure
handled by the rollback in the `except` branch — leaves the database
(slots, is_open flags, bookings) exactly as it was. -/
theorem rejected_book_leaves_db_unchanged (f : Bool) (db : DB) (v sid eid nid : Nat) :
    (bookSlotWithFailure f db v sid eid nid).1 ≠ .ok →
    (bookSlotWithFailure f db v sid eid nid).2 = db := by
  unfold bookSlotWithFailure bookSlot bookSlotTx
  split
  · intro _; rfl
  · split
    · intro _; rfl
    · split
      · intro _; rfl
      · split
        · intro _; rfl
        · split
          · intro _; rfl
          · split
            · intro _; rfl
            · intro h; exact absurd rfl h

/-- Claim C6, witness instantiation. -/
theorem rejected_book_leaves_db_unchanged_check :
    (bookSlotWithFailure false ⟨[], [], []⟩ 1 7 7 1).2 = (⟨[], [], []⟩ : DB) :=
  rejected_book_leaves_db_unchanged false ⟨[], [], []⟩ 1 7 7 1 (by decide)

/-- Claim C8, counterexample: a Book naming slot id 99, which matches no
slot, is rejected with the very same error value as a Book against the
existing but closed slot 10 — there is no distinct NotFound kind a caller
could distinguish. -/
theorem unknown_slot_error_same_as_closed_slot :
    (bookSlot ⟨[⟨1, 1, true⟩], [⟨10, 1, 3, 0, false⟩], []⟩ 5 99 1 1).1
      = .err "Slot not available" 400 ∧
    (bookSlot ⟨[⟨1, 1, true⟩], [⟨10, 1, 3, 0, false⟩], []⟩ 5 10 1 1).1
      = .err "Slot not available" 400 := by decide

/-- Claim C8, amended: with valid ids and no prior booking, a Book naming
a slot id that matches no Slot is rejected with the same "Slot not
available" (HTTP 400) error used for a closed slot, and the database is
left unchanged; the code exposes no separate NotFound kind for it. -/
theorem unknown_slot_rejected_as_not_available (db : DB) (v sid eid nid : Nat)
    (hs : sid ≠ 0) (he : eid ≠ 0)
    (hb : findBookingFor db v sid = none)
    (hns : findSlot db sid = none) :
    bookSlot db v sid eid nid = (.err "Slot not available" 400, db) := by
  unfold bookSlot bookSlotTx
  have h0 : (sid == 0 || eid == 0) = false := by simp [hs, he]
  rw [h0, hb, hns]
  rfl

/-- Claim C8, witness instantiation of the amended theorem. -/
theorem unknown_slot_rejected_as_not_available_check :
    bookSlot ⟨[⟨1, 1, true⟩], [⟨10, 1, 3, 0, true⟩], []⟩ 5 99 1 1
      = (.err "Slot not available" 400, ⟨[⟨1, 1, true⟩], [⟨10, 1, 3, 0, true⟩], []⟩) :=
  unknown_slot_rejected_as_not_available ⟨[⟨1, 1, true⟩], [⟨10, 1, 3, 0, true⟩], []⟩
    5 99 1 1 (by decide) (by decide) (by decide) (by decide)

/-- Claim C3: with valid ids, on a slot that is open, for a claimant with
no prior booking on it: when the slot is not full the call succeeds,
appends exactly one confirmed Booking, increments `current_volunteers` by
exactly 1, and flips `is_open` (`is_available`) to false in the same write
if and only if the incremented count reaches capacity; when instead the
count is at or above capacity the call is rejected with the SlotFull error
and nothing is inserted. -/
theorem book_open_slot_behaviour (db : DB) (v sid eid nid : Nat) (s0 : TimeSlotRow)
    (hs : sid ≠ 0) (he : eid ≠ 0)
    (hfresh : findBookingFor db v sid = none)
    (hfind : findSlot db sid = some s0)
    (hav : s0.isAvailable = true) :
    (s0.currentVolunteers < s0.maxVolunteers →
      (bookSlot db v sid eid nid).1 = .ok ∧
      (bookSlot db v sid eid nid).2.bookings
        = db.bookings ++ [⟨nid, v, sid, eid, .confirmed⟩] ∧
      ∃ s1, findSlot (bookSlot db v sid eid nid).2 sid = some s1 ∧
        s1.currentVolunteers = s0.currentVolunteers + 1 ∧
        s1.maxVolunteers = s0.maxVolunteers ∧
        (s1.isAvailable = false ↔ s0.currentVolunteers + 1 = s0.maxVolunteers)) ∧
    (s0.maxVolunteers ≤ s0.currentVolunteers →
      bookSlot db v sid eid nid = (.err "Slot is full" 400, db)) := by
  have h0 : (sid == 0 || eid == 0) = false := by simp [hs, he]
  have hfind2 : db.slots.find? (fun s => s.id == sid) = some s0 := hfind
  have hid : (s0.id == sid) = true := by
    have h3 := List.find?_some hfind2
    simpa using h3
  constructor
  · intro hlt
    have hnotfull : ¬ (s0.maxVolunteers ≤ s0.currentVolunteers) := Nat.not_le.mpr hlt
    have hrun : bookSlot db v sid eid nid =
        (.ok, { db with
          slots := setSlot sid
            { s0 with currentVolunteers := s0.currentVolunteers + 1,
                      isAvailable := if s0.maxVolunteers ≤ s0.currentVolunteers + 1
                                     then false else true } db.slots,
          bookings := db.bookings ++ [⟨nid, v, sid, eid, .confirmed⟩] }) := by
      simp only [bookSlot, bookSlotTx, h0, hfresh, hfind, Bool.false_eq_true, if_false,
        hav, Bool.not_true, hnotfull]
    rw [hrun]
    refine ⟨rfl, rfl,
      ⟨{ s0 with currentVolunteers := s0.currentVolunteers + 1,
                 isAvailable := if s0.maxVolunteers ≤ s0.currentVolunteers + 1
                                then false else true }, ?_, rfl, rfl, ?_⟩⟩
    · unfold findSlot
      refine find?_setSlot_of_found _ _ _ hid ?_
      simp [hfind2]
    · simp only []
      constructor
      · intro hfalse
        by_cases hc : s0.maxVolunteers ≤ s0.currentVolunteers + 1
        · omega
        · rw [if_neg hc] at hfalse
          cases hfalse
      · intro heq
        rw [if_pos (by omega)]
  · intro hge
    simp only [bookSlot, bookSlotTx, h0, hfresh, hfind, hav, Bool.false_eq_true, if_false,
      Bool.not_true, hge, if_true]

/-- Claim C3, witness instantiation (both branches discharged at concrete
states: an open slot with one free unit, and an open slot already at
capacity). -/
theorem book_open_slot_behaviour_check :
    (bookSlot ⟨[⟨1, 1, true⟩], [⟨10, 1, 1, 0, true⟩], []⟩ 5 10 1 1).1 = .ok ∧
    bookSlot ⟨[⟨1, 1, true⟩], [⟨10, 1, 2, 2, true⟩], []⟩ 6 10 1 1
      = (.err "Slot is full" 400, ⟨[⟨1, 1, true⟩], [⟨10, 1, 2, 2, true⟩], []⟩) :=
  ⟨((book_open_slot_behaviour ⟨[⟨1, 1, true⟩], [⟨10, 1, 1, 0, true⟩], []⟩ 5 10 1 1
      ⟨10, 1, 1, 0, true⟩ (by decide) (by decide) (by decide) (by decide) (by decide)).1
        (by decide)).1,
   (book_open_slot_behaviour ⟨[⟨1, 1, true⟩], [⟨10, 1, 2, 2, true⟩], []⟩ 6 10 1 1
      ⟨10, 1, 2, 2, true⟩ (by decide) (by decide) (by decide) (by decide) (by decide)).2
        (by decide)⟩

/-- Claim C2, counterexample: slot 10 has capacity 1 and two distinct
fresh claimants book in sequence (the row lock serializes the concurrent
transactions). The first succeeds; the second is rejected — but with the
"Slot not available" error produced by the `is_available` check, not the
"Slot is full" (SlotFull) error the claim promises, because the filling
write already flipped `is_available` off. -/
theorem second_claimant_rejected_not_available_not_slotfull :
    (runBooks ⟨[⟨1, 1, true⟩], [⟨10, 1, 1, 0, true⟩], []⟩
        [(7, 10, 1, 1), (8, 10, 1, 2)]).1
      = [.ok, .err "Slot not available" 400] ∧
    BookResult.err "Slot not available" 400 ≠ .err "Slot is full" 400 := by decide

/-- Claim C2, amended: for a slot of capacity `cap ≥ 1` starting empty and
open, with `M ≥ cap` distinct claimants none of whom has a prior booking
on the slot, running the `book_slot` transactions in any serial order
(the row lock serializes concurrent calls) yields exactly `cap` successes
followed by `M − cap` rejections — carrying the "Slot not available"
error, not SlotFull — and the slot ends with exactly `cap` confirmed
Bookings, never more. -/
theorem capacity_guard_exact_fill (db : DB) (sid eid cap : Nat) (s0 : TimeSlotRow)
    (calls : List (Nat × Nat))
    (hs : sid ≠ 0) (he : eid ≠ 0) (hcap : 1 ≤ cap)
    (hfind : findSlot db sid = some s0)
    (hmax : s0.maxVolunteers = cap) (hcur : s0.currentVolunteers = 0)
    (hav : s0.isAvailable = true)
    (hnodup : (calls.map Prod.fst).Nodup)
    (hfresh : ∀ p ∈ calls, findBookingFor db p.1 sid = none)
    (hconf : confirmedCount db.bookings sid = 0)
    (hM : cap ≤ calls.length) :
    (runBooks db (calls.map (fun p => (p.1, sid, eid, p.2)))).1
        = List.replicate cap .ok
          ++ List.replicate (calls.length - cap) (.err "Slot not available" 400)
      ∧ confirmedCount (runBooks db (calls.map (fun p => (p.1, sid, eid, p.2)))).2.bookings sid
        = cap := by
  have hr := runBooks_fill sid eid hs he calls 0 db s0 cap hfind hmax hcur
    (by rw [hav]; exact (decide_eq_true (by omega)).symm) (by omega) hnodup hfresh
    (by omega)
  refine ⟨?_, ?_⟩
  · have h1 := hr.1
    simpa using h1
  · have h2 := hr.2
    rw [hconf] at h2
    simpa using h2

/-- Claim C2, witness instantiation of the amended theorem: capacity 2,
three distinct fresh claimants. -/
theorem capacity_guard_exact_fill_check :
    (runBooks ⟨[⟨1, 1, true⟩], [⟨10, 1, 2, 0, true⟩], []⟩
        (([(7, 71), (8, 81), (9, 91)] : List (Nat × Nat)).map
          (fun p => (p.1, 10, 1, p.2)))).1
      = List.replicate 2 .ok
        ++ List.replicate (([(7, 71), (8, 81), (9, 91)] : List (Nat × Nat)).length - 2)
            (.err "Slot not available" 400)
      ∧ confirmedCount
          (runBooks ⟨[⟨1, 1, true⟩], [⟨10, 1, 2, 0, true⟩], []⟩
            (([(7, 71), (8, 81), (9, 91)] : List (Nat × Nat)).map
              (fun p => (p.1, 10, 1, p.2)))).2.bookings 10 = 2 :=
  capacity_guard_exact_fill ⟨[⟨1, 1, true⟩], [⟨10, 1, 2, 0, true⟩], []⟩ 10 1 2
    ⟨10, 1, 2, 0, true⟩ [(7, 71), (8, 81), (9, 91)]
    (by decide) (by decide) (by decide) (by decide) (by decide) (by decide) (by decide)
    (by decide) (by decide) (by decide) (by decide)

/-- Claim C7: (src has no cancel code; `cancelBooking` is modelled from
the spec) cancelling a confirmed Booking marks it cancelled and decrements
the slot's counter in one step, re-opening the slot if it had flipped
closed; and after a slot was booked to capacity, cancelling one Booking
lets a fresh claimant book successfully. -/
theorem cancel_reopens_slot_and_rebooking_succeeds
    (db : DB) (bid : Nat) (b : BookingRow) (s : TimeSlotRow)
    (hb : db.bookings.find? (fun x => x.id == bid) = some b)
    (hconf : b.status = .confirmed)
    (hsfind : findSlot db b.timeSlotId = some s) :
    (cancelBooking db bid).1 = .ok ∧
    (cancelBooking db bid).2.bookings.find? (fun x => x.id == bid)
        = some { b with status := .cancelled } ∧
    findSlot (cancelBooking db bid).2 b.timeSlotId
      = some { s with currentVolunteers := s.currentVolunteers - 1,
                      isAvailable := s.isAvailable
                        || decide (s.maxVolunteers ≤ s.currentVolunteers) } ∧
    (∀ v2 eid2 nid, b.timeSlotId ≠ 0 → eid2 ≠ 0 → 1 ≤ s.maxVolunteers →
      s.currentVolunteers = s.maxVolunteers →
      findBookingFor db v2 b.timeSlotId = none →
      (bookSlot (cancelBooking db bid).2 v2 b.timeSlotId eid2 nid).1 = .ok) := by
  have hout : cancelBooking db bid
      = (.ok, { db with bookings := cancelFirst bid db.bookings,
                        slots := setSlot b.timeSlotId
                          { s with currentVolunteers := s.currentVolunteers - 1,
                                   isAvailable := s.isAvailable
                                     || decide (s.maxVolunteers ≤ s.currentVolunteers) }
                          db.slots }) := by
    simp [cancelBooking, hb, hconf, hsfind]
  have hid : (s.id == b.timeSlotId) = true := by
    have h3 := List.find?_some (p := fun x : TimeSlotRow => x.id == b.timeSlotId) hsfind
    simpa using h3
  have hfind2 : findSlot (cancelBooking db bid).2 b.timeSlotId
      = some { s with currentVolunteers := s.currentVolunteers - 1,
                      isAvailable := s.isAvailable
                        || decide (s.maxVolunteers ≤ s.currentVolunteers) } := by
    rw [hout]
    unfold findSlot
    refine find?_setSlot_of_found _ _ _ hid ?_
    unfold findSlot at hsfind
    rw [hsfind]
    rfl
  refine ⟨by rw [hout], ?_, hfind2, ?_⟩
  · rw [hout]
    exact find?_cancelFirst _ _ _ hb
  · intro v2 eid2 nid hts he2 hcap hfull hfr
    have h0 : (b.timeSlotId == 0 || eid2 == 0) = false := by simp [hts, he2]
    have hfr2 : findBookingFor (cancelBooking db bid).2 v2 b.timeSlotId = none := by
      rw [hout]
      unfold findBookingFor
      exact findBookingFor_cancelFirst_none _ _ _ _ hfr
    have hrun := bookSlot_success_shape (cancelBooking db bid).2 v2 b.timeSlotId eid2 nid
      _ h0 hfr2 hfind2
      (by show (s.isAvailable || decide (s.maxVolunteers ≤ s.currentVolunteers)) = true
          rw [hfull]
          simp)
      (by show s.currentVolunteers - 1 < s.maxVolunteers; omega)
    rw [hrun]

/-- Claim C7, witness instantiation: slot 10 with capacity 1 fully booked
and closed, booking 1 confirmed; cancel then rebook by claimant 8. -/
theorem cancel_reopens_slot_and_rebooking_succeeds_check :
    (cancelBooking ⟨[⟨1, 1, true⟩], [⟨10, 1, 1, 1, false⟩],
        [⟨1, 7, 10, 1, .confirmed⟩]⟩ 1).1 = .ok ∧
    (bookSlot (cancelBooking ⟨[⟨1, 1, true⟩], [⟨10, 1, 1, 1, false⟩],
        [⟨1, 7, 10, 1, .confirmed⟩]⟩ 1).2 8 10 1 2).1 = .ok := by
  have h := cancel_reopens_slot_and_rebooking_succeeds
    ⟨[⟨1, 1, true⟩], [⟨10, 1, 1, 1, false⟩], [⟨1, 7, 10, 1, .confirmed⟩]⟩ 1
    ⟨1, 7, 10, 1, .confirmed⟩ ⟨10, 1, 1, 1, false⟩ (by decide) (by decide) (by decide)
  exact ⟨h.1, h.2.2.2 8 1 2 (by decide) (by decide) (by decide) (by decide) (by decide)⟩

theorem runMigrationsFrom_eq_takeWhile (fail : Nat → Bool) (ms : List Migration) :
    runMigrationsFrom fail ms
      = (ms.takeWhile (fun m => !fail m.version)).map Migration.version := by
  induction ms with
  | nil => rfl
  | cons m ms ih =>
    unfold runMigrationsFrom
    cases hf : fail m.version with
    | true => simp [List.takeWhile_cons, hf]
    | false => simp [List.takeWhile_cons, hf, ih]

theorem sortByVersion_eq_self (ms : List Migration)
    (h : ms.Pairwise (fun a b => a.version < b.version)) : sortByVersion ms = ms := by
  induction ms with
  | nil => rfl
  | cons m ms ih =>
    rw [List.pairwise_cons] at h
    unfold sortByVersion
    rw [ih h.2]
    cases ms with
    | nil => rfl
    | cons x xs =>
      unfold insertByVersion
      rw [if_pos (h.1 x (List.mem_cons_self _ _))]

theorem takeWhile_map_version (q : Nat → Bool) (ms : List Migration) :
    (ms.takeWhile (fun m => q m.version)).map Migration.version
      = (ms.map Migration.version).takeWhile q := by
  induction ms with
  | nil => rfl
  | cons m ms ih =>
    simp only [List.takeWhile_cons, List.map_cons]
    cases hq : q m.version with
    | true => simp [hq, ih]
    | false => simp [hq]

theorem filter_map_version (q : Nat → Bool) (ms : List Migration) :
    (ms.filter (fun m => q m.version)).map Migration.version
      = (ms.map Migration.version).filter q := by
  induction ms with
  | nil => rfl
  | cons m ms ih =>
    simp only [List.filter_cons, List.map_cons]
    cases hq : q m.version with
    | true => simp [hq, ih]
    | false => simp [hq, ih]

/-- Claim C10: `run_migrations` applies exactly the registered migrations
(versions 1, 2, 3, 4) whose version exceeds the current database version,
in ascending version order, recording each applied one, and stops at the
first failing migration (which itself records nothing, being rolled
back). The recorded list equals the pending versions truncated at the
first failure, and it is strictly ascending. -/
theorem run_migrations_pending_until_first_failure (cur : Nat) (fail : Nat → Bool) :
    run_migrations cur fail
      = (([1, 2, 3, 4].filter (fun v => decide (cur < v))).takeWhile (fun v => !fail v))
    ∧ List.Pairwise (· < ·) (run_migrations cur fail) := by
  have hpair : registeredMigrations.Pairwise (fun a b => a.version < b.version) := by
    unfold registeredMigrations
    decide
  have hsort : sortByVersion (registeredMigrations.filter (fun m => cur < m.version))
      = registeredMigrations.filter (fun m => cur < m.version) :=
    sortByVersion_eq_self _ (List.Pairwise.filter _ hpair)
  have h1 : run_migrations cur fail
      = (([1, 2, 3, 4].filter (fun v => decide (cur < v))).takeWhile (fun v => !fail v)) := by
    unfold run_migrations
    rw [hsort, runMigrationsFrom_eq_takeWhile,
      takeWhile_map_version (fun v => !fail v),
      filter_map_version (fun v => decide (cur < v))]
    rfl
  refine ⟨h1, ?_⟩
  rw [h1]
  have hsub : (([1, 2, 3, 4].filter (fun v => decide (cur < v))).takeWhile
      (fun v => !fail v)).Sublist [1, 2, 3, 4] :=
    (List.takeWhile_sublist _).trans (List.filter_sublist _)
  exact List.Pairwise.sublist hsub (by decide)

/-- Claim C1, counterexample: the invariant does not survive every
sequence of core operations. Slot 10 belongs to event 1; booking it with
the unchecked caller-supplied event id 2 and then deleting event 2 (the
cascade deletes bookings by `event_id`) removes the booking while slot
10's counter stays at 1, so `reserved_count` no longer equals the number
of non-cancelled Bookings referencing the slot — even though the initial
state satisfied the full invariant. -/
theorem count_invariant_broken_by_mismatch_and_cascade :
    Inv ⟨[⟨1, 1, true⟩, ⟨2, 1, true⟩], [⟨10, 1, 2, 0, true⟩], []⟩ ∧
    ¬ countInvariant
        (execOps ⟨[⟨1, 1, true⟩, ⟨2, 1, true⟩], [⟨10, 1, 2, 0, true⟩], []⟩
          [.book 5 10 2 1, .deleteRes 2]) := by decide

/-- Claim C1, amended: starting from a state satisfying the invariant
(plus distinct slot ids and event-consistent bookings), after any sequence
of book, cancel and resource-deletion operations in which every book call
supplies the event id of the slot it names, every slot's `reserved_count`
(`current_volunteers`) equals the number of non-cancelled Bookings
referencing it and never exceeds its capacity. -/
theorem core_ops_preserve_count_invariant (db : DB) (ops : List Op)
    (hinv : Inv db) (hok : opsOk db ops) :
    countInvariant (execOps db ops) := by
  induction ops generalizing db with
  | nil => exact hinv.2.2
  | cons op ops ih =>
    exact ih (applyOp db op) (inv_preserved db op hinv hok.1) hok.2

/-- Claim C1, witness instantiation: two books filling slot 10, a cancel,
then deletion of the event, all with matching event ids. -/
theorem core_ops_preserve_count_invariant_check :
    countInvariant (execOps ⟨[⟨1, 1, true⟩], [⟨10, 1, 2, 0, true⟩], []⟩
      [.book 5 10 1 1, .book 6 10 1 2, .cancel 1, .deleteRes 1]) :=
  core_ops_preserve_count_invariant ⟨[⟨1, 1, true⟩], [⟨10, 1, 2, 0, true⟩], []⟩
    [.book 5 10 1 1, .book 6 10 1 2, .cancel 1, .deleteRes 1]
    (by decide) (by decide)

end Ngo
